import Mathlib

/-!
# `cbits/lzma_wrapper.c`: the FFI wrappers around liblzma

A shallow embedding of the four wrapper functions `hs_lzma_init_decoder`,
`hs_lzma_init_encoder`, `hs_lzma_done` and `hs_lzma_run`, and the properties of the
wrapper layer.

Conventions of the embedding:

* a pointer is a byte address (`Nat`), `NULL` is address `0`;
* `HsInt`, the signed machine word, is an `Int`; its conversion to an unsigned type of
  `b` bits is the C conversion, reduction modulo `2 ^ b`: `size_t` has the width of the
  machine word, `uint32_t` and the enumerations `lzma_action` and `lzma_check` have 32
  bits;
* `HsBool`, `uint32_t` and `uint64_t` arguments are `Nat`; an `lzma_ret` code is a `Nat`
  and is returned as the `HsInt` of the same value;
* caller memory is a map from addresses to bytes; the `lzma_stream` the wrapper is
  handed lives outside that byte map (the windows do not overlap the coder state);
* liblzma is not part of the wrapper: its functions and its `LZMA_STREAM_INIT` macro are
  fields of an environment `Env`, and every theorem holds for every environment.
-/

set_option linter.unusedVariables false

namespace LzmaWrapper

/-! ## Data model -/

/-- The null pointer. -/
def NULL : Nat := 0

/-- C conversion of a signed integer to an unsigned integer type of `bits` bits. -/
def toUnsigned (bits : Nat) (x : Int) : Nat := (x % 2 ^ bits).toNat

/-- Modelled from the spec: the coder state `lzma_stream`, declared in liblzma's header.
The wrapper names four of its members, the cursor pair of the input window and the
cursor pair of the output window; `rest` is everything else the state holds (totals,
allocator, the internal algorithm state), which the wrapper never names. -/
structure lzma_stream (R : Type) where
  next_in : Nat
  avail_in : Nat
  next_out : Nat
  avail_out : Nat
  rest : R

/-- Modelled from the spec: the multithreaded-encoder configuration `lzma_mt`, declared
in liblzma's header: flags, thread count, block size, timeout, preset, filter chain and
integrity check; `reserved` stands for the remaining (reserved) members. -/
structure lzma_mt where
  flags : Nat
  threads : Nat
  block_size : Nat
  timeout : Nat
  preset : Nat
  filters : Nat
  check : Nat
  reserved : Nat
deriving DecidableEq, Repr

/-- What a call can observe and change besides the coder state: the caller's byte
memory and the resources private to the library (allocations, worker threads). -/
structure World (H : Type) where
  mem : Nat → Nat
  heap : H

/-- The platform and library the wrapper is compiled and linked against: the width of
the machine word (`HsInt`, `size_t`), the value of the `LZMA_STREAM_INIT` macro, and
liblzma's entry points. Each entry point takes the world and the coder state and gives
back the new world, the new coder state and (but for `lzma_end`) an `lzma_ret` code. -/
structure Env (R H : Type) where
  wordBits : Nat
  LZMA_STREAM_INIT : lzma_stream R
  lzma_auto_decoder : World H → lzma_stream R → Nat → Nat → World H × lzma_stream R × Nat
  lzma_stream_decoder : World H → lzma_stream R → Nat → Nat → World H × lzma_stream R × Nat
  lzma_stream_encoder_mt : World H → lzma_stream R → lzma_mt → World H × lzma_stream R × Nat
  lzma_code : World H → lzma_stream R → Nat → World H × lzma_stream R × Nat
  lzma_end : World H → lzma_stream R → World H × lzma_stream R

/-- The C library's `memset(s, c, n)`: the `n` bytes from address `s` become
`(unsigned char) c`. -/
def memset (mem : Nat → Nat) (s : Nat) (c : Nat) (n : Nat) : Nat → Nat :=
  fun a => if s ≤ a ∧ a < s + n then c % 256 else mem a

/-! ## The wrapper functions -/

variable {R H : Type}

/-- The wrapper `hs_lzma_init_decoder(ls, autolzma, memlimit, flags)`. -/
def hs_lzma_init_decoder (E : Env R H) (w : World H) (ls : lzma_stream R)
    (autolzma : Nat) (memlimit : Nat) (flags : Nat) : World H × lzma_stream R × Int :=
  let ls_init := E.LZMA_STREAM_INIT
  let ls := ls_init
  let r := (if autolzma ≠ 0 then E.lzma_auto_decoder else E.lzma_stream_decoder)
    w ls memlimit flags
  (r.1, r.2.1, (r.2.2 : Int))

/-- The `lzma_mt mt = { .threads = threads, .preset = preset, .check = check }` of
`hs_lzma_init_encoder`: the three named members are converted to the types of their
fields, every member not named is zero. -/
def hs_lzma_init_encoder_mt (preset : Nat) (check : Int) (threads : Int) : lzma_mt :=
  { flags := 0
    threads := toUnsigned 32 threads
    block_size := 0
    timeout := 0
    preset := preset
    filters := NULL
    check := toUnsigned 32 check
    reserved := 0 }

/-- The wrapper `hs_lzma_init_encoder(ls, preset, check, threads)`. -/
def hs_lzma_init_encoder (E : Env R H) (w : World H) (ls : lzma_stream R)
    (preset : Nat) (check : Int) (threads : Int) : World H × lzma_stream R × Int :=
  let ls_init := E.LZMA_STREAM_INIT
  let ls := ls_init
  let mt := hs_lzma_init_encoder_mt preset check threads
  let r := E.lzma_stream_encoder_mt w ls mt
  (r.1, r.2.1, (r.2.2 : Int))

/-- The wrapper `hs_lzma_done(ls)`. -/
def hs_lzma_done (E : Env R H) (w : World H) (ls : lzma_stream R) :
    World H × lzma_stream R :=
  E.lzma_end w ls

/-- The part of `hs_lzma_run` up to the call of `lzma_code`: the four cursor assignments
and the `memset` of the output window. The result is the world and coder state `lzma_code` is
called on. -/
def hs_lzma_run_enter (E : Env R H) (w : World H) (ls : lzma_stream R)
    (ibuf : Nat) (ibuf_len : Int) (obuf : Nat) (obuf_len : Int) :
    World H × lzma_stream R :=
  let ls := { ls with next_in := ibuf }
  let ls := { ls with avail_in := toUnsigned E.wordBits ibuf_len }
  let ls := { ls with next_out := obuf }
  let ls := { ls with avail_out := toUnsigned E.wordBits obuf_len }
  let w := { w with mem := memset w.mem obuf 0 (toUnsigned E.wordBits obuf_len) }
  (w, ls)

/-- The part of `hs_lzma_run` after `lzma_code` has returned `r`: both cursors are set
to `NULL` and the code is returned. -/
def hs_lzma_run_leave (r : World H × lzma_stream R × Nat) : World H × lzma_stream R × Int :=
  let ls := r.2.1
  let ret := r.2.2
  let ls := { ls with next_in := NULL }
  let ls := { ls with next_out := NULL }
  (r.1, ls, (ret : Int))

/-- The wrapper `hs_lzma_run(ls, action, ibuf, ibuf_len, obuf, obuf_len)`. -/
def hs_lzma_run (E : Env R H) (w : World H) (ls : lzma_stream R) (action : Int)
    (ibuf : Nat) (ibuf_len : Int) (obuf : Nat) (obuf_len : Int) :
    World H × lzma_stream R × Int :=
  let e := hs_lzma_run_enter E w ls ibuf ibuf_len obuf obuf_len
  let r := E.lzma_code e.1 e.2 (toUnsigned 32 action)
  hs_lzma_run_leave r

/-- The result triple of a library call as the wrapper returns it: the `lzma_ret` code
becomes an `HsInt` of the same value. -/
def asHsInt (r : World H × lzma_stream R × Nat) : World H × lzma_stream R × Int :=
  (r.1, r.2.1, (r.2.2 : Int))

/-! ## A stand-in library for evaluating the wrapper

`storeEnv` is a 64-bit environment whose coder copies bytes unchanged. It is used only
to instantiate the theorems at concrete inputs. -/

/-- Copy `n` bytes from address `src` to address `dst`. -/
def copyBytes (mem : Nat → Nat) (dst src n : Nat) : Nat → Nat :=
  fun a => if dst ≤ a ∧ a < dst + n then mem (src + (a - dst)) else mem a

/-- A coder that copies as many bytes as both windows allow and reports `1` once a
finishing action (`3`) has consumed all input, `0` otherwise. -/
def storeCode (w : World Unit) (ls : lzma_stream Nat) (action : Nat) :
    World Unit × lzma_stream Nat × Nat :=
  let n := min ls.avail_in ls.avail_out
  let w1 : World Unit := { w with mem := copyBytes w.mem ls.next_out ls.next_in n }
  let ls1 : lzma_stream Nat :=
    { next_in := ls.next_in + n, avail_in := ls.avail_in - n,
      next_out := ls.next_out + n, avail_out := ls.avail_out - n,
      rest := ls.rest + n }
  (w1, ls1, if action = 3 ∧ ls1.avail_in = 0 then 1 else 0)

/-- The stand-in environment. -/
def storeEnv : Env Nat Unit where
  wordBits := 64
  LZMA_STREAM_INIT := { next_in := 0, avail_in := 0, next_out := 0, avail_out := 0, rest := 0 }
  lzma_auto_decoder := fun w ls _ _ => (w, { ls with rest := 1 }, 0)
  lzma_stream_decoder := fun w ls _ flags => (w, { ls with rest := 2 }, if flags < 64 then 0 else 8)
  lzma_stream_encoder_mt := fun w ls mt =>
    if mt.threads = 0 then (w, ls, 8) else (w, { ls with rest := 3 }, 0)
  lzma_code := storeCode
  lzma_end := fun w ls => (w, { ls with rest := 0 })

/-- A memory whose every byte is `0xAA`, but for the two input bytes `0x68 0x69` at
addresses `100` and `101`. -/
def dirtyWorld : World Unit where
  mem := fun a => if a = 100 then 0x68 else if a = 101 then 0x69 else 0xAA
  heap := ()

/-- A coder state with stale cursors and counts, as a previous call might leave them. -/
def staleStream : lzma_stream Nat :=
  { next_in := 7000, avail_in := 50, next_out := 9000, avail_out := 60, rest := 5 }

/-! ## Conversions -/

theorem toUnsigned_of_range (bits : Nat) (x : Int) (h0 : 0 ≤ x) (h1 : x < 2 ^ bits) :
    (toUnsigned bits x : Int) = x := by
  unfold toUnsigned
  rw [Int.emod_eq_of_lt h0 h1]
  exact Int.toNat_of_nonneg h0

theorem memset_inside (mem : Nat → Nat) (s c n a : Nat) (h0 : s ≤ a) (h1 : a < s + n) :
    memset mem s c n a = c % 256 := by
  unfold memset
  rw [if_pos ⟨h0, h1⟩]

/-- C1. For an output window of declared length `m ≥ 0` (representable in a machine
word), `hs_lzma_run` calls the code step exactly on the world and state built by its
entry part, and in that world every one of the `m` bytes of the output window is `0`,
whatever memory held before; hence on return every byte of the window that the code
step left as it found it is `0`. -/
theorem hs_lzma_run_zero_fills_output (E : Env R H) (w : World H) (ls : lzma_stream R)
    (action : Int) (ibuf : Nat) (ibuf_len : Int) (obuf : Nat) (m : Int)
    (hm0 : 0 ≤ m) (hm : m < 2 ^ E.wordBits) :
    hs_lzma_run E w ls action ibuf ibuf_len obuf m
        = hs_lzma_run_leave
            (E.lzma_code (hs_lzma_run_enter E w ls ibuf ibuf_len obuf m).1
              (hs_lzma_run_enter E w ls ibuf ibuf_len obuf m).2 (toUnsigned 32 action))
      ∧ (∀ i : Nat, (i : Int) < m →
          (hs_lzma_run_enter E w ls ibuf ibuf_len obuf m).1.mem (obuf + i) = 0)
      ∧ (∀ i : Nat, (i : Int) < m →
          (hs_lzma_run E w ls action ibuf ibuf_len obuf m).1.mem (obuf + i)
              = (hs_lzma_run_enter E w ls ibuf ibuf_len obuf m).1.mem (obuf + i) →
          (hs_lzma_run E w ls action ibuf ibuf_len obuf m).1.mem (obuf + i) = 0) := by
  have hconv : (toUnsigned E.wordBits m : Int) = m := toUnsigned_of_range _ _ hm0 hm
  have hzero : ∀ i : Nat, (i : Int) < m →
      (hs_lzma_run_enter E w ls ibuf ibuf_len obuf m).1.mem (obuf + i) = 0 := by
    intro i hi
    have hlt : i < toUnsigned E.wordBits m := by
      have : (i : Int) < (toUnsigned E.wordBits m : Int) := by rw [hconv]; exact hi
      exact_mod_cast this
    show memset w.mem obuf 0 (toUnsigned E.wordBits m) (obuf + i) = 0
    rw [memset_inside _ _ _ _ _ (Nat.le_add_right obuf i) (Nat.add_lt_add_left hlt obuf)]
  refine ⟨rfl, hzero, ?_⟩
  intro i hi hsame
  rw [hsame]
  exact hzero i hi

/-- Witness of C1: at a memory full of `0xAA`, a 4-byte output window at address `200`
is all zero when the code step starts. -/
theorem hs_lzma_run_zero_fills_output_witness :
    dirtyWorld.mem 203 = 0xAA
      ∧ (hs_lzma_run_enter storeEnv dirtyWorld staleStream 100 2 200 4).1.mem (200 + 3) = 0 :=
  ⟨by decide,
   (hs_lzma_run_zero_fills_output storeEnv dirtyWorld staleStream 3 100 2 200 4
      (by decide) (by decide)).2.1 3 (by decide)⟩

/-- C2. `hs_lzma_run` makes one call of the code step and returns exactly the code that
call returned; the remaining-input and remaining-output counts left in the state are
those the code step left. For window lengths `≥ 0` the number of bytes the code step
consumed (produced), its count at entry minus its count at exit, is `ibuf_len`
(`obuf_len`) minus the count left in the state. -/
theorem hs_lzma_run_status_and_counts (E : Env R H) (w : World H) (ls : lzma_stream R)
    (action : Int) (ibuf : Nat) (ibuf_len : Int) (obuf : Nat) (obuf_len : Int) :
    (hs_lzma_run E w ls action ibuf ibuf_len obuf obuf_len).2.2
        = ((E.lzma_code (hs_lzma_run_enter E w ls ibuf ibuf_len obuf obuf_len).1
              (hs_lzma_run_enter E w ls ibuf ibuf_len obuf obuf_len).2
              (toUnsigned 32 action)).2.2 : Int)
      ∧ (hs_lzma_run E w ls action ibuf ibuf_len obuf obuf_len).2.1.avail_in
        = (E.lzma_code (hs_lzma_run_enter E w ls ibuf ibuf_len obuf obuf_len).1
              (hs_lzma_run_enter E w ls ibuf ibuf_len obuf obuf_len).2
              (toUnsigned 32 action)).2.1.avail_in
      ∧ (hs_lzma_run E w ls action ibuf ibuf_len obuf obuf_len).2.1.avail_out
        = (E.lzma_code (hs_lzma_run_enter E w ls ibuf ibuf_len obuf obuf_len).1
              (hs_lzma_run_enter E w ls ibuf ibuf_len obuf obuf_len).2
              (toUnsigned 32 action)).2.1.avail_out
      ∧ (0 ≤ ibuf_len → ibuf_len < 2 ^ E.wordBits →
          ((hs_lzma_run_enter E w ls ibuf ibuf_len obuf obuf_len).2.avail_in : Int)
              - (E.lzma_code (hs_lzma_run_enter E w ls ibuf ibuf_len obuf obuf_len).1
                  (hs_lzma_run_enter E w ls ibuf ibuf_len obuf obuf_len).2
                  (toUnsigned 32 action)).2.1.avail_in
            = ibuf_len - (hs_lzma_run E w ls action ibuf ibuf_len obuf obuf_len).2.1.avail_in)
      ∧ (0 ≤ obuf_len → obuf_len < 2 ^ E.wordBits →
          ((hs_lzma_run_enter E w ls ibuf ibuf_len obuf obuf_len).2.avail_out : Int)
              - (E.lzma_code (hs_lzma_run_enter E w ls ibuf ibuf_len obuf obuf_len).1
                  (hs_lzma_run_enter E w ls ibuf ibuf_len obuf obuf_len).2
                  (toUnsigned 32 action)).2.1.avail_out
            = obuf_len
              - (hs_lzma_run E w ls action ibuf ibuf_len obuf obuf_len).2.1.avail_out) := by
  refine ⟨rfl, rfl, rfl, ?_, ?_⟩
  · intro h0 h1
    have hconv := toUnsigned_of_range E.wordBits ibuf_len h0 h1
    show (toUnsigned E.wordBits ibuf_len : Int) - _ = ibuf_len - _
    rw [hconv]
    rfl
  · intro h0 h1
    have hconv := toUnsigned_of_range E.wordBits obuf_len h0 h1
    show (toUnsigned E.wordBits obuf_len : Int) - _ = obuf_len - _
    rw [hconv]
    rfl

/-- Witness of C2: with the copying coder, a finishing call on a 2-byte input window and
a 4-byte output window returns the coder's code `1` and leaves the counts `0` and `2`,
so 2 bytes were consumed and 2 produced. -/
theorem hs_lzma_run_status_and_counts_witness :
    (hs_lzma_run storeEnv dirtyWorld staleStream 3 100 2 200 4).2.2 = 1
      ∧ (2 : Int) - (hs_lzma_run storeEnv dirtyWorld staleStream 3 100 2 200 4).2.1.avail_in = 2
      ∧ (4 : Int) - (hs_lzma_run storeEnv dirtyWorld staleStream 3 100 2 200 4).2.1.avail_out
          = 2 :=
  ⟨(hs_lzma_run_status_and_counts storeEnv dirtyWorld staleStream 3 100 2 200 4).1.trans
      (by decide),
   ((hs_lzma_run_status_and_counts storeEnv dirtyWorld staleStream 3 100 2 200 4).2.2.2.1
      (by decide) (by decide)).symm.trans (by decide),
   ((hs_lzma_run_status_and_counts storeEnv dirtyWorld staleStream 3 100 2 200 4).2.2.2.2
      (by decide) (by decide)).symm.trans (by decide)⟩

/-- C3. On return from `hs_lzma_run` both cursors of the state are `NULL`, whatever
code is returned, and nothing else differs from what the code step left: the state is
the code step's state with `next_in` and `next_out` replaced, and the world is the code
step's world. -/
theorem hs_lzma_run_clears_cursors (E : Env R H) (w : World H) (ls : lzma_stream R)
    (action : Int) (ibuf : Nat) (ibuf_len : Int) (obuf : Nat) (obuf_len : Int) :
    (hs_lzma_run E w ls action ibuf ibuf_len obuf obuf_len).2.1.next_in = NULL
      ∧ (hs_lzma_run E w ls action ibuf ibuf_len obuf obuf_len).2.1.next_out = NULL
      ∧ (hs_lzma_run E w ls action ibuf ibuf_len obuf obuf_len).2.1
        = { (E.lzma_code (hs_lzma_run_enter E w ls ibuf ibuf_len obuf obuf_len).1
              (hs_lzma_run_enter E w ls ibuf ibuf_len obuf obuf_len).2
              (toUnsigned 32 action)).2.1 with next_in := NULL, next_out := NULL }
      ∧ (hs_lzma_run E w ls action ibuf ibuf_len obuf obuf_len).1
        = (E.lzma_code (hs_lzma_run_enter E w ls ibuf ibuf_len obuf obuf_len).1
              (hs_lzma_run_enter E w ls ibuf ibuf_len obuf obuf_len).2
              (toUnsigned 32 action)).1 :=
  ⟨rfl, rfl, rfl, rfl⟩

/-- C4. For declared lengths `≥ 0` (representable in a machine word), the state the
code step is called on has `next_in = ibuf`, `avail_in = ibuf_len`, `next_out = obuf`
and `avail_out = obuf_len`: it is built from the arguments and the `rest` of the state
alone, so the cursors and counts a previous call left play no part. -/
theorem hs_lzma_run_engine_views (E : Env R H) (w : World H) (ls : lzma_stream R)
    (action : Int) (ibuf : Nat) (ibuf_len : Int) (obuf : Nat) (obuf_len : Int)
    (hi0 : 0 ≤ ibuf_len) (hi : ibuf_len < 2 ^ E.wordBits)
    (ho0 : 0 ≤ obuf_len) (ho : obuf_len < 2 ^ E.wordBits) :
    hs_lzma_run E w ls action ibuf ibuf_len obuf obuf_len
        = hs_lzma_run_leave
            (E.lzma_code (hs_lzma_run_enter E w ls ibuf ibuf_len obuf obuf_len).1
              (hs_lzma_run_enter E w ls ibuf ibuf_len obuf obuf_len).2 (toUnsigned 32 action))
      ∧ (hs_lzma_run_enter E w ls ibuf ibuf_len obuf obuf_len).2
        = { next_in := ibuf, avail_in := ibuf_len.toNat,
            next_out := obuf, avail_out := obuf_len.toNat, rest := ls.rest }
      ∧ ((hs_lzma_run_enter E w ls ibuf ibuf_len obuf obuf_len).2.avail_in : Int) = ibuf_len
      ∧ ((hs_lzma_run_enter E w ls ibuf ibuf_len obuf obuf_len).2.avail_out : Int)
        = obuf_len := by
  have hci := toUnsigned_of_range E.wordBits ibuf_len hi0 hi
  have hco := toUnsigned_of_range E.wordBits obuf_len ho0 ho
  have hni : toUnsigned E.wordBits ibuf_len = ibuf_len.toNat := by
    have h := congrArg Int.toNat hci
    rwa [Int.toNat_natCast] at h
  have hno : toUnsigned E.wordBits obuf_len = obuf_len.toNat := by
    have h := congrArg Int.toNat hco
    rwa [Int.toNat_natCast] at h
  refine ⟨rfl, ?_, hci, hco⟩
  show ({ next_in := ibuf, avail_in := toUnsigned E.wordBits ibuf_len,
          next_out := obuf, avail_out := toUnsigned E.wordBits obuf_len,
          rest := ls.rest } : lzma_stream R) = _
  rw [hni, hno]

/-- Witness of C4: a state left with stale cursors `7000`, `9000` and counts `50`, `60`
reaches the code step with the views `(100, 2)` and `(200, 4)` of the call. -/
theorem hs_lzma_run_engine_views_witness :
    staleStream.next_in = 7000 ∧ staleStream.avail_in = 50
      ∧ (hs_lzma_run_enter storeEnv dirtyWorld staleStream 100 2 200 4).2
        = { next_in := 100, avail_in := 2, next_out := 200, avail_out := 4, rest := 5 } :=
  ⟨rfl, rfl,
   (hs_lzma_run_engine_views storeEnv dirtyWorld staleStream 3 100 2 200 4
      (by decide) (by decide) (by decide) (by decide)).2.1⟩

/-! ## Decoder and encoder initialisation -/

/-- C5. `hs_lzma_init_decoder` calls the auto-decoder constructor when the auto-detect
flag is non-zero and the stream-decoder constructor when it is zero, in both cases on
the state `LZMA_STREAM_INIT` with the memory limit and flags it was given, and returns
that call's code; the same result is obtained from any other prior state. -/
theorem hs_lzma_init_decoder_spec (E : Env R H) (w : World H) (ls ls' : lzma_stream R)
    (autolzma memlimit flags : Nat) :
    (autolzma ≠ 0 →
        hs_lzma_init_decoder E w ls autolzma memlimit flags
          = asHsInt (E.lzma_auto_decoder w E.LZMA_STREAM_INIT memlimit flags))
      ∧ (autolzma = 0 →
        hs_lzma_init_decoder E w ls autolzma memlimit flags
          = asHsInt (E.lzma_stream_decoder w E.LZMA_STREAM_INIT memlimit flags))
      ∧ hs_lzma_init_decoder E w ls autolzma memlimit flags
        = hs_lzma_init_decoder E w ls' autolzma memlimit flags := by
  refine ⟨?_, ?_, rfl⟩
  · intro h
    unfold hs_lzma_init_decoder asHsInt
    simp only [if_pos h]
  · intro h
    unfold hs_lzma_init_decoder asHsInt
    simp only [h, ne_eq, not_true_eq_false, if_false]

/-- Witness of C5: from a state with stale contents, flag `1` gives the auto-decoder's
state and flag `0` the stream decoder's, for memory limit `2 ^ 26` and flags `8`. -/
theorem hs_lzma_init_decoder_spec_witness :
    (hs_lzma_init_decoder storeEnv dirtyWorld staleStream 1 (2 ^ 26) 8).2.1.rest = 1
      ∧ (hs_lzma_init_decoder storeEnv dirtyWorld staleStream 0 (2 ^ 26) 8).2.1.rest = 2 :=
  ⟨(congrArg (fun r => r.2.1.rest)
      ((hs_lzma_init_decoder_spec storeEnv dirtyWorld staleStream staleStream 1 (2 ^ 26) 8).1
        (by decide))).trans rfl,
   (congrArg (fun r => r.2.1.rest)
      ((hs_lzma_init_decoder_spec storeEnv dirtyWorld staleStream staleStream 0 (2 ^ 26) 8).2.1
        rfl)).trans rfl⟩

/-- Counterexample to C6: the configuration the constructor receives does not always
hold the given values. For preset `6`, check `4` and thread count `2 ^ 32 + 1` it is not
the configuration with `threads = 2 ^ 32 + 1` but the one with `threads = 1`; the check
kind `-1` arrives as `4294967295` and the check kind `2 ^ 32 + 4` arrives as `4`. -/
theorem hs_lzma_init_encoder_given_values_fail :
    hs_lzma_init_encoder_mt 6 4 (2 ^ 32 + 1)
        ≠ { flags := 0, threads := 2 ^ 32 + 1, block_size := 0, timeout := 0,
            preset := 6, filters := NULL, check := 4, reserved := 0 }
      ∧ ((hs_lzma_init_encoder_mt 6 4 (2 ^ 32 + 1)).threads : Int) ≠ 2 ^ 32 + 1
      ∧ (hs_lzma_init_encoder_mt 6 4 (2 ^ 32 + 1)).threads = 1
      ∧ ((hs_lzma_init_encoder_mt 6 (-1) 1).check : Int) ≠ -1
      ∧ (hs_lzma_init_encoder_mt 6 (-1) 1).check = 4294967295
      ∧ ((hs_lzma_init_encoder_mt 6 (2 ^ 32 + 4) 1).check : Int) ≠ 2 ^ 32 + 4
      ∧ (hs_lzma_init_encoder_mt 6 (2 ^ 32 + 4) 1).check = 4 := by
  decide

/-- C6, amended. For every preset and every machine-word check kind and thread count,
`hs_lzma_init_encoder` calls the multithreaded stream-encoder constructor on the state
`LZMA_STREAM_INIT` with the configuration whose `preset` is the given value, whose
`check` and `threads` are the given values reduced modulo `2 ^ 32`, and whose other
members are all zero, and returns that call's code, whatever the state held before;
when check kind and thread count lie in `0 .. 2 ^ 32 - 1` the two members are the given
values themselves. Every thread count, `1` included, takes this one path. -/
theorem hs_lzma_init_encoder_spec (E : Env R H) (w : World H) (ls ls' : lzma_stream R)
    (preset : Nat) (check threads : Int) :
    hs_lzma_init_encoder E w ls preset check threads
        = asHsInt (E.lzma_stream_encoder_mt w E.LZMA_STREAM_INIT
            { flags := 0, threads := (threads % 2 ^ 32).toNat, block_size := 0,
              timeout := 0, preset := preset, filters := NULL,
              check := (check % 2 ^ 32).toNat, reserved := 0 })
      ∧ hs_lzma_init_encoder E w ls preset check threads
        = hs_lzma_init_encoder E w ls' preset check threads
      ∧ (0 ≤ check → check < 2 ^ 32 → 0 ≤ threads → threads < 2 ^ 32 →
          hs_lzma_init_encoder E w ls preset check threads
            = asHsInt (E.lzma_stream_encoder_mt w E.LZMA_STREAM_INIT
                { flags := 0, threads := threads.toNat, block_size := 0, timeout := 0,
                  preset := preset, filters := NULL, check := check.toNat, reserved := 0 })
          ∧ ((hs_lzma_init_encoder_mt preset check threads).threads : Int) = threads
          ∧ ((hs_lzma_init_encoder_mt preset check threads).check : Int) = check) := by
  refine ⟨rfl, rfl, ?_⟩
  intro hc0 hc ht0 ht
  have hci := toUnsigned_of_range 32 check hc0 hc
  have hti := toUnsigned_of_range 32 threads ht0 ht
  have hcc : toUnsigned 32 check = check.toNat := by
    have h := congrArg Int.toNat hci
    rwa [Int.toNat_natCast] at h
  have htt : toUnsigned 32 threads = threads.toNat := by
    have h := congrArg Int.toNat hti
    rwa [Int.toNat_natCast] at h
  refine ⟨?_, hti, hci⟩
  unfold hs_lzma_init_encoder asHsInt hs_lzma_init_encoder_mt
  simp only [hcc, htt]

/-- Witness of C6: preset `6`, check `4` (CRC64) and one thread reach the constructor
as the configuration `{ threads = 1, preset = 6, check = 4 }`, all else zero. -/
theorem hs_lzma_init_encoder_spec_witness :
    hs_lzma_init_encoder storeEnv dirtyWorld staleStream 6 4 1
      = asHsInt (storeEnv.lzma_stream_encoder_mt dirtyWorld storeEnv.LZMA_STREAM_INIT
          { flags := 0, threads := 1, block_size := 0, timeout := 0,
            preset := 6, filters := NULL, check := 4, reserved := 0 }) :=
  ((hs_lzma_init_encoder_spec storeEnv dirtyWorld staleStream staleStream 6 4 1).2.2
    (by decide) (by decide) (by decide) (by decide)).1

/-- Counterexample to C8: for preset `6` and check `4` the configuration built for
thread count `0` has `threads = 0` and is not the configuration built for thread
count `1`. -/
theorem hs_lzma_init_encoder_threads_zero_differs :
    (hs_lzma_init_encoder_mt 6 4 0).threads = 0
      ∧ (hs_lzma_init_encoder_mt 6 4 1).threads = 1
      ∧ hs_lzma_init_encoder_mt 6 4 0 ≠ hs_lzma_init_encoder_mt 6 4 1 := by
  decide

/-- C8, amended. For every preset and check kind, `hs_lzma_init_encoder` hands a thread
count of `0` to the multithreaded constructor unchanged: the configuration it builds
has `threads = 0`, differs from the one for thread count `1` exactly in that member,
and the returned code is the constructor's code for that configuration. -/
theorem hs_lzma_init_encoder_threads_zero (E : Env R H) (w : World H) (ls : lzma_stream R)
    (preset : Nat) (check : Int) :
    hs_lzma_init_encoder E w ls preset check 0
        = asHsInt (E.lzma_stream_encoder_mt w E.LZMA_STREAM_INIT
            (hs_lzma_init_encoder_mt preset check 0))
      ∧ (hs_lzma_init_encoder_mt preset check 0).threads = 0
      ∧ hs_lzma_init_encoder_mt preset check 0 ≠ hs_lzma_init_encoder_mt preset check 1
      ∧ hs_lzma_init_encoder_mt preset check 1
        = { hs_lzma_init_encoder_mt preset check 0 with threads := 1 } := by
  refine ⟨rfl, rfl, ?_, rfl⟩
  intro h
  have h1 : (hs_lzma_init_encoder_mt preset check 0).threads
      = (hs_lzma_init_encoder_mt preset check 1).threads := congrArg lzma_mt.threads h
  revert h1
  show ¬ (toUnsigned 32 0 = toUnsigned 32 1)
  decide

end LzmaWrapper
